import Mathlib

/-!
Verification model of the request-handling layer in
`src/social_insecurity/routes.py` (a Flask social-networking app).

The relational store is modelled by lists of rows in insertion (rowid)
order; `sqlite.query(..., one=True)` becomes `List.find?` (first matching
row).  Sessions, flash notices, redirects and rendered data are made
explicit in a `Result` record returned by each handler.  Randomness
(`secrets.token_hex`), the clock (`CURRENT_TIMESTAMP`), the configured
extension allow-list and werkzeug's `secure_filename` enter as parameters.
Filenames are plain strings; Python string primitives (`lower`,
`endswith`, `"." in s`, `rsplit(".", 1)[-1]`) are embedded as operations
on the underlying character lists.  A Python `TypeError` (dereferencing a
missing row) is modelled by an `error` response at the point of first
dereference, with no further effects.
-/

/-- HTTP request method of the incoming request. -/
inductive Method where
  | get
  | post
deriving DecidableEq

/-- A row of the `Users` table.  The six profile columns are NULL until the
profile handler fills them, hence `Option`. -/
structure User where
  id : Nat
  username : String
  first_name : String
  last_name : String
  password : String
  education : Option String := none
  employment : Option String := none
  music : Option String := none
  movie : Option String := none
  nationality : Option String := none
  birthday : Option String := none
deriving DecidableEq

/-- A row of the `Posts` table. -/
structure Post where
  id : Nat
  u_id : Nat
  content : String
  image : Option String
  creation_time : Nat
deriving DecidableEq

/-- A row of the `Comments` table. -/
structure Comment where
  p_id : Nat
  u_id : Nat
  comment : String
  creation_time : Nat
deriving DecidableEq

/-- A row of the `Friends` table: a directed edge u_id -> f_id. -/
structure Friend where
  u_id : Nat
  f_id : Nat
deriving DecidableEq

/-- The relational store, each table in rowid (insertion) order. -/
structure DB where
  users : List User
  posts : List Post
  comments : List Comment
  friends : List Friend
deriving DecidableEq

/-- Server-side session state; the two keys the code ever writes. -/
structure Session where
  user_id : Option Nat
  username : Option String
deriving DecidableEq

/-- A flash notice: message plus category tag. -/
structure Flash where
  message : String
  category : String
deriving DecidableEq

/-- Targets of `url_for` redirects used by the handlers. -/
inductive Page where
  | index
  | stream (username : String)
  | comments (username : String) (post_id : Nat)
  | friends (username : String)
  | profile (username : String)
deriving DecidableEq

/-- A row of the stream read query: post joined with its author, plus the
comment-count subquery column `cc`. -/
structure StreamRow where
  post : Post
  author : User
  cc : Nat
deriving DecidableEq

/-- A row of the comments-page post query: post joined with its author. -/
structure PostUserRow where
  post : Post
  author : User
deriving DecidableEq

/-- A row of the comments-page comment query: comment joined with author. -/
structure CommentUserRow where
  comment : Comment
  author : User
deriving DecidableEq

/-- A row of the friends read query: edge joined with the target user. -/
structure FriendRow where
  edge : Friend
  friendUser : User
deriving DecidableEq

/-- What a handler sends back: a redirect, a rendered page carrying the
data the template receives, a 403, a served file, or a Python error. -/
inductive Response where
  | redirect (target : Page)
  | renderIndex
  | renderStream (username : String) (posts : List StreamRow)
  | renderComments (username : String) (post : Option PostUserRow)
      (comments : List CommentUserRow)
  | renderFriends (username : String) (friends : List FriendRow)
  | renderProfile (username : String) (user : Option User)
  | forbidden
  | sendFile (name : String)
  | error
deriving DecidableEq

/-- Complete observable outcome of one request: the store afterwards, the
session afterwards, the flash notices emitted, the response, and the
files written to the uploads directory during the request. -/
structure Result where
  db : DB
  session : Session
  flashes : List Flash
  response : Response
  filesWritten : List String
deriving DecidableEq

/-- SQLite rowid assignment for an INSERT that omits the id column:
one more than the largest existing id. -/
def freshUserId (users : List User) : Nat :=
  users.foldr (fun u m => max u.id m) 0 + 1

/-- SQLite rowid assignment for the Posts table. -/
def freshPostId (posts : List Post) : Nat :=
  posts.foldr (fun p m => max p.id m) 0 + 1

/-- Embeds `SELECT * FROM Users WHERE username = ?` with `one=True`:
the first row (in rowid order) whose username matches. -/
def selectUserByUsername (db : DB) (name : String) : Option User :=
  db.users.find? (fun u => u.username == name)

/-- Embeds `SELECT * FROM Users WHERE id = ?` with `one=True`. -/
def selectUserById (db : DB) (uid : Nat) : Option User :=
  db.users.find? (fun u => u.id == uid)

/-- Characters strictly after the last dot of the list; the whole list
when no dot occurs.  Embeds Python `s.rsplit(".", 1)[-1]` (the guarded
uses below only apply it when a dot is present). -/
def afterLastDot (l : List Char) : List Char :=
  (l.reverse.takeWhile (fun c => c != '.')).reverse

/-- Embeds Python `str.lower` (the filenames and extensions involved are
ASCII, where `Char.toLower` agrees with Python). -/
def strToLower (s : String) : String :=
  String.mk (s.data.map Char.toLower)

/-- Embeds Python `str.endswith`. -/
def strEndsWith (s pat : String) : Bool :=
  pat.data.isSuffixOf s.data

/-- Extension extraction in the stream handler (routes.py line 106):
`raw.rsplit(".", 1)[-1].lower() if "." in raw else ""`. -/
def streamExt (raw : String) : String :=
  if raw.data.contains '.' then strToLower (String.mk (afterLastDot raw.data)) else ""

/-- Extension extraction in the uploads handler (routes.py line 299),
applied to the already-lowercased name:
`lower.rsplit(".", 1)[-1] if "." in lower else ""`. -/
def uploadsExt (lower : String) : String :=
  if lower.data.contains '.' then String.mk (afterLastDot lower.data) else ""

/-- The outcome produced by the `login_required` guard when the session
has no `user_id` key (routes.py lines 22-24): warning flash, redirect to
index, nothing else touched. -/
def guardResult (db : DB) (sess : Session) : Result :=
  { db := db, session := sess, flashes := [⟨"Please sign in.", "warning"⟩],
    response := .redirect .index, filesWritten := [] }

/-- Embeds the `login_required` decorator (routes.py lines 19-26).  The
wrapped view receives the session user id. -/
def login_required (db : DB) (sess : Session) (view : Nat → Result) : Result :=
  match sess.user_id with
  | none => guardResult db sess
  | some uid => view uid

/-- Outcome of the username-canonicalization block. -/
inductive Canon where
  | redirectTo (username : String)
  | proceed (username : String)
deriving DecidableEq

/-- Embeds the block that opens stream, comments, friends and profile
(e.g. routes.py lines 88-91): when the URL username differs from the
session username, a GET is redirected to the session username and a POST
silently continues as the session user.  When the session stores no
username Python would carry `None` along; that dead corner (unreachable
behind the login guard for sessions written by login) is modelled by the
empty string. -/
def canonicalize (urlUsername : String) (sessUsername : Option String) (m : Method) : Canon :=
  if some urlUsername ≠ sessUsername then
    match m with
    | .get => .redirectTo (sessUsername.getD "")
    | .post => .proceed (sessUsername.getD "")
  else .proceed urlUsername

/-- The three ways of reaching the index handler: plain GET, the login
sub-form, or the registration sub-form (mutually exclusive submits). -/
inductive IndexRequest where
  | get
  | login (username : String) (password : String)
  | register (username : String) (first_name : String) (last_name : String) (password : String)
deriving DecidableEq

/-- Embeds the index handler (routes.py lines 28-70): login looks up the
first user with the submitted username and compares passwords in plain
text; registration appends a new Users row verbatim with no uniqueness
check and does not touch the session. -/
def index (db : DB) (sess : Session) (req : IndexRequest) : Result :=
  match req with
  | .login uname pw =>
    match selectUserByUsername db uname with
    | none =>
      { db := db, session := sess,
        flashes := [⟨"Sorry, this user does not exist!", "warning"⟩],
        response := .renderIndex, filesWritten := [] }
    | some user =>
      if user.password != pw then
        { db := db, session := sess, flashes := [⟨"Sorry, wrong password!", "warning"⟩],
          response := .renderIndex, filesWritten := [] }
      else
        { db := db, session := { user_id := some user.id, username := some user.username },
          flashes := [], response := .redirect (.stream user.username), filesWritten := [] }
  | .register uname fn ln pw =>
    let newUser : User :=
      { id := freshUserId db.users, username := uname, first_name := fn,
        last_name := ln, password := pw }
    { db := { db with users := db.users ++ [newUser] },
      session := sess, flashes := [⟨"User successfully created!", "success"⟩],
      response := .redirect .index, filesWritten := [] }
  | .get =>
    { db := db, session := sess, flashes := [], response := .renderIndex, filesWritten := [] }

/-- Embeds the logout handler (routes.py lines 72-76). -/
def logout (db : DB) : Result :=
  { db := db, session := { user_id := none, username := none },
    flashes := [⟨"Logged out.", "info"⟩], response := .redirect .index, filesWritten := [] }

/-- Data of a validated PostForm submission: text content plus the
filename of the attached file, if any. -/
structure PostForm where
  content : String
  image : Option String
deriving DecidableEq

/-- The comment-count subquery of the stream read
(`SELECT COUNT(*) FROM Comments WHERE p_id = p.id`). -/
def commentCount (db : DB) (pid : Nat) : Nat :=
  (db.comments.filter (fun c => c.p_id == pid)).length

/-- WHERE clause of the stream read query (routes.py lines 130-132): the
author is a friend of `me` in either edge direction, or `me` itself. -/
def streamVisible (db : DB) (me : Nat) (author : Nat) : Bool :=
  ((db.friends.filter (fun e => e.f_id == me)).map (fun e => e.u_id)).contains author
  || ((db.friends.filter (fun e => e.u_id == me)).map (fun e => e.f_id)).contains author
  || author == me

/-- Stream read query (routes.py lines 127-135): posts joined with their
authors and comment counts, filtered by `streamVisible`, newest first. -/
def streamQuery (db : DB) (me : Nat) : List StreamRow :=
  ((db.posts.flatMap (fun p => (db.users.filter (fun u => u.id == p.u_id)).map
      (fun u => ({ post := p, author := u, cc := commentCount db p.id } : StreamRow)))).filter
    (fun r => streamVisible db me r.post.u_id)).mergeSort
    (fun a b => b.post.creation_time ≤ a.post.creation_time)

/-- Embeds the stream handler (routes.py lines 79-137).  On a validated
submission with an attached non-empty filename, the sanitized name's
extension is checked against the allow-list before anything is written;
the logged-in user row is first dereferenced (`user["id"]`) at the
insert, after the file save, so a missing user row errors there. -/
def stream (sanitize : String → String) (allowed : List String) (token : String) (now : Nat)
    (db : DB) (sess : Session) (m : Method) (urlUsername : String)
    (form : Option PostForm) : Result :=
  login_required db sess (fun uid =>
    match canonicalize urlUsername sess.username m with
    | .redirectTo su =>
      { db := db, session := sess, flashes := [], response := .redirect (.stream su),
        filesWritten := [] }
    | .proceed username =>
      let user? := selectUserById db uid
      match m, form with
      | .post, some f =>
        let insertPost : Option String → List String → Result := fun img files =>
          match user? with
          | none => { db := db, session := sess, flashes := [], response := .error,
                      filesWritten := files }
          | some user =>
            let newPost : Post :=
              { id := freshPostId db.posts, u_id := user.id, content := f.content,
                image := img, creation_time := now }
            { db := { db with posts := db.posts ++ [newPost] },
              session := sess, flashes := [], response := .redirect (.stream username),
              filesWritten := files }
        match f.image with
        | some fname =>
          if fname != "" then
            let raw := sanitize fname
            if !(allowed.contains (streamExt raw)) then
              { db := db, session := sess,
                flashes := [⟨"File type not allowed", "warning"⟩],
                response := .redirect (.stream username), filesWritten := [] }
            else
              insertPost (some (token ++ "_" ++ raw)) [token ++ "_" ++ raw]
          else insertPost none []
        | none => insertPost none []
      | _, _ =>
        match user? with
        | none => { db := db, session := sess, flashes := [], response := .error,
                    filesWritten := [] }
        | some user =>
          { db := db, session := sess, flashes := [],
            response := .renderStream username (streamQuery db user.id), filesWritten := [] })

/-- Read half of the comments handler (routes.py lines 168-186): the post
joined with its author (first matching row, `one=True`), and all comments
on the post joined with their authors, DISTINCT, newest first. -/
def commentsRead (db : DB) (sess : Session) (username : String) (post_id : Nat) : Result :=
  let post := (db.posts.flatMap (fun p => (db.users.filter (fun u => u.id == p.u_id)).map
      (fun u => ({ post := p, author := u } : PostUserRow)))).find?
      (fun r => r.post.id == post_id)
  let cs := (((db.comments.flatMap (fun c => (db.users.filter (fun u => u.id == c.u_id)).map
      (fun u => ({ comment := c, author := u } : CommentUserRow)))).filter
      (fun r => r.comment.p_id == post_id)).eraseDups).mergeSort
      (fun a b => b.comment.creation_time ≤ a.comment.creation_time)
  { db := db, session := sess, flashes := [], response := .renderComments username post cs,
    filesWritten := [] }

/-- Embeds the comments handler (routes.py lines 140-186).  A validated
submission inserts a Comment row referencing the URL post id with no
existence check; the read half always runs afterwards. -/
def comments (now : Nat) (db : DB) (sess : Session) (m : Method) (urlUsername : String)
    (post_id : Nat) (form : Option String) : Result :=
  login_required db sess (fun uid =>
    match canonicalize urlUsername sess.username m with
    | .redirectTo su =>
      { db := db, session := sess, flashes := [],
        response := .redirect (.comments su post_id), filesWritten := [] }
    | .proceed username =>
      match m, form with
      | .post, some text =>
        match selectUserById db uid with
        | none => { db := db, session := sess, flashes := [], response := .error,
                    filesWritten := [] }
        | some user =>
          let newComment : Comment :=
            { p_id := post_id, u_id := user.id, comment := text, creation_time := now }
          commentsRead { db with comments := db.comments ++ [newComment] }
            sess username post_id
      | _, _ => commentsRead db sess username post_id)

/-- Friends read query (routes.py lines 235-243): edges originating from
`me`, self-edges excluded, joined with the target user. -/
def friendsQuery (db : DB) (me : Nat) : List FriendRow :=
  (db.friends.flatMap (fun e => (db.users.filter (fun u => u.id == e.f_id)).map
    (fun u => ({ edge := e, friendUser := u } : FriendRow)))).filter
    (fun r => r.edge.u_id == me && r.edge.f_id != me)

/-- Embeds the friends handler (routes.py lines 189-244).  The logged-in
user row is dereferenced (`user["id"]`, line 218) before any check, flash
or insert, so a missing user row is modelled as erroring up front. -/
def friends (db : DB) (sess : Session) (m : Method) (urlUsername : String)
    (form : Option String) : Result :=
  login_required db sess (fun uid =>
    match canonicalize urlUsername sess.username m with
    | .redirectTo su =>
      { db := db, session := sess, flashes := [], response := .redirect (.friends su),
        filesWritten := [] }
    | .proceed username =>
      match selectUserById db uid with
      | none => { db := db, session := sess, flashes := [], response := .error,
                  filesWritten := [] }
      | some user =>
        let step : DB × List Flash :=
          match m, form with
          | .post, some target =>
            match selectUserByUsername db target with
            | none => (db, [⟨"User does not exist!", "warning"⟩])
            | some friend =>
              let fids := (db.friends.filter (fun e => e.u_id == user.id)).map (fun e => e.f_id)
              if friend.id == user.id then
                (db, [⟨"You cannot be friends with yourself!", "warning"⟩])
              else if fids.contains friend.id then
                (db, [⟨"You are already friends with this user!", "warning"⟩])
              else
                ({ db with friends := db.friends ++ [{ u_id := user.id, f_id := friend.id }] },
                 [⟨"Friend successfully added!", "success"⟩])
          | _, _ => (db, [])
        { db := step.1, session := sess, flashes := step.2,
          response := .renderFriends username (friendsQuery step.1 user.id),
          filesWritten := [] })

/-- Data of a validated ProfileForm submission: the six profile fields. -/
structure ProfileForm where
  education : String
  employment : String
  music : String
  movie : String
  nationality : String
  birthday : String
deriving DecidableEq

/-- Embeds the profile handler (routes.py lines 247-285): a validated
submission updates the six profile columns of the session user id
unconditionally and redirects; otherwise the user row (fetched by id,
possibly absent) is rendered. -/
def profile (db : DB) (sess : Session) (m : Method) (urlUsername : String)
    (form : Option ProfileForm) : Result :=
  login_required db sess (fun uid =>
    match canonicalize urlUsername sess.username m with
    | .redirectTo su =>
      { db := db, session := sess, flashes := [], response := .redirect (.profile su),
        filesWritten := [] }
    | .proceed username =>
      let user? := selectUserById db uid
      match m, form with
      | .post, some f =>
        let updateRow : User → User := fun u =>
          if u.id == uid then
            { u with education := some f.education, employment := some f.employment,
                     music := some f.music, movie := some f.movie,
                     nationality := some f.nationality, birthday := some f.birthday }
          else u
        { db := { db with users := db.users.map updateRow },
          session := sess, flashes := [], response := .redirect (.profile username),
          filesWritten := [] }
      | _, _ =>
        { db := db, session := sess, flashes := [],
          response := .renderProfile username user?, filesWritten := [] })

/-- Embeds the uploads handler (routes.py lines 288-306): 403 when the
lowercased name ends in an active-content extension or its extension is
outside the allow-list, otherwise the file is served. -/
def uploads (allowed : List String) (filename : String) : Response :=
  let lower := strToLower filename
  if strEndsWith lower ".html" || strEndsWith lower ".htm" || strEndsWith lower ".js" then
    .forbidden
  else if !(allowed.contains (uploadsExt lower)) then
    .forbidden
  else
    .sendFile filename

/-! ## Helper lemmas -/

/-- A user row returned by the id lookup carries the id that was asked for. -/
theorem selectUserById_id {db : DB} {uid : Nat} {u : User}
    (h : selectUserById db uid = some u) : u.id = uid := by
  unfold selectUserById at h
  have hp := List.find?_some h
  simpa using hp

/-- ASCII case mapping sends only the dot to a dot. -/
theorem toLower_eq_dot {c : Char} (h : c.toLower = '.') : c = '.' := by
  simp only [Char.toLower] at h
  split at h
  next hn =>
    have hv : Nat.isValidChar (c.toNat + 32) := Or.inl (by omega)
    rw [Char.ofNat, dif_pos hv] at h
    have h2 := congrArg Char.toNat h
    have h3 : (Char.ofNatAux (c.toNat + 32) hv).toNat = c.toNat + 32 := rfl
    rw [h3] at h2
    have h4 : ('.' : Char).toNat = 46 := by decide
    omega
  next => exact h

/-- Lowercasing a string introduces no dot. -/
theorem strToLower_no_dot {s : String} (h : s.data.contains '.' = false) :
    (strToLower s).data.contains '.' = false := by
  rw [Bool.eq_false_iff] at h ⊢
  intro hc
  apply h
  have hmem : '.' ∈ s.data.map Char.toLower := by
    have hm : '.' ∈ (strToLower s).data := by
      simpa [List.contains, List.elem_iff] using hc
    simpa [strToLower] using hm
  rw [List.mem_map] at hmem
  obtain ⟨a, ha, hla⟩ := hmem
  have := toLower_eq_dot hla
  subst this
  simpa [List.contains, List.elem_iff] using ha

/-! ## Claims -/

/-- C10: the registration branch of the index handler leaves the session
exactly as it was, writing neither user_id nor username, so a freshly
registered user is not logged in; a plain GET leaves it unchanged as
well, the login branch being the only writer of session keys. -/
theorem registration_preserves_session (db : DB) (sess : Session)
    (uname fn ln pw : String) :
    (index db sess (.register uname fn ln pw)).session = sess ∧
    (index db sess .get).session = sess :=
  ⟨rfl, rfl⟩

/-- C2: with no user_id in the session, every session-gated route
(stream, comments, friends, profile) produces exactly the guard outcome,
a warning flash plus a redirect to index, the wrapped view is never
invoked (the guard result is the same for every view), and the store is
unchanged. -/
theorem unauthenticated_gated_routes_redirect
    (db : DB) (sess : Session) (h : sess.user_id = none)
    (sanitize : String → String) (allowed : List String) (token : String) (now : Nat)
    (m : Method) (u : String) (pid : Nat) (pf : Option PostForm)
    (cf ff : Option String) (prf : Option ProfileForm) :
    stream sanitize allowed token now db sess m u pf = guardResult db sess ∧
    comments now db sess m u pid cf = guardResult db sess ∧
    friends db sess m u ff = guardResult db sess ∧
    profile db sess m u prf = guardResult db sess ∧
    (∀ view : Nat → Result, login_required db sess view = guardResult db sess) ∧
    (guardResult db sess).db = db ∧
    (guardResult db sess).flashes = [⟨"Please sign in.", "warning"⟩] ∧
    (guardResult db sess).response = .redirect .index := by
  unfold stream comments friends profile login_required
  rw [h]
  exact ⟨rfl, rfl, rfl, rfl, fun _ => rfl, rfl, rfl, rfl⟩

/-- Witness for C2: a concrete unauthenticated GET on the stream route. -/
theorem unauthenticated_gated_routes_redirect_witness :
    (⟨none, none⟩ : Session).user_id = none ∧
    stream (fun s => s) [] "t" 0 ⟨[], [], [], []⟩ ⟨none, none⟩ .get "alice" none =
      guardResult ⟨[], [], [], []⟩ ⟨none, none⟩ :=
  ⟨rfl, (unauthenticated_gated_routes_redirect ⟨[], [], [], []⟩ ⟨none, none⟩ rfl
    (fun s => s) [] "t" 0 .get "alice" 0 none none none none).1⟩

/-- Pre-existing user row used by the duplicate-registration
counterexample. -/
def aliceRow : User :=
  { id := 1, username := "alice", first_name := "A", last_name := "A", password := "pw1" }

/-- C1 counterexample: registration performs no uniqueness check, so with
a row alice/pw1 already present, registering alice/pw2 and then logging
in as alice/pw2 fails: the login lookup returns the earlier row, flashes
the wrong-password warning, writes no session keys and renders index
instead of redirecting to the new user's stream. -/
theorem register_then_login_can_fail :
    (index (index ⟨[aliceRow], [], [], []⟩ ⟨none, none⟩
        (.register "alice" "B" "B" "pw2")).db
      ⟨none, none⟩ (.login "alice" "pw2")).flashes =
        [⟨"Sorry, wrong password!", "warning"⟩] ∧
    (index (index ⟨[aliceRow], [], [], []⟩ ⟨none, none⟩
        (.register "alice" "B" "B" "pw2")).db
      ⟨none, none⟩ (.login "alice" "pw2")).session = ⟨none, none⟩ ∧
    (index (index ⟨[aliceRow], [], [], []⟩ ⟨none, none⟩
        (.register "alice" "B" "B" "pw2")).db
      ⟨none, none⟩ (.login "alice" "pw2")).response = .renderIndex := by
  refine ⟨?_, ?_, ?_⟩ <;> rfl

/-- A login whose username lookup hits a row with a matching password
takes the success branch: fresh session with that row's id and username,
redirect to its stream. -/
theorem index_login_success (db : DB) (sess : Session) (uname pw : String) (user : User)
    (hfind : selectUserByUsername db uname = some user) (hpw : user.password = pw) :
    index db sess (.login uname pw) =
      { db := db, session := ⟨some user.id, some user.username⟩, flashes := [],
        response := .redirect (.stream user.username), filesWritten := [] } := by
  simp only [index]
  rw [hfind]
  simp [hpw]

/-- C1 (amended): provided no existing row already carries the submitted
username, after the registration branch inserts the User row a login with
exactly the same username and password succeeds: it clears the prior
session, stores the inserted row's id and username in the session, emits
no warning and redirects to that user's stream. -/
theorem register_then_login_succeeds (db : DB) (sess sess2 : Session)
    (uname fn ln pw : String)
    (hfresh : ∀ u ∈ db.users, u.username ≠ uname) :
    (index (index db sess (.register uname fn ln pw)).db sess2 (.login uname pw)).session =
      ⟨some (freshUserId db.users), some uname⟩ ∧
    (index (index db sess (.register uname fn ln pw)).db sess2 (.login uname pw)).response =
      .redirect (.stream uname) ∧
    (index (index db sess (.register uname fn ln pw)).db sess2 (.login uname pw)).flashes =
      [] ∧
    (index (index db sess (.register uname fn ln pw)).db sess2 (.login uname pw)).db =
      (index db sess (.register uname fn ln pw)).db := by
  have hnone : db.users.find? (fun u => u.username == uname) = none := by
    rw [List.find?_eq_none]
    intro u hu
    simpa using hfresh u hu
  have hlook : selectUserByUsername (index db sess (.register uname fn ln pw)).db uname =
      some { id := freshUserId db.users, username := uname, first_name := fn,
             last_name := ln, password := pw } := by
    show List.find? _ (db.users ++ [_]) = _
    rw [List.find?_append, hnone]
    simp
  rw [index_login_success _ sess2 _ _ _ hlook rfl]
  exact ⟨rfl, rfl, rfl, rfl⟩

/-- Witness for C1 (amended): registering bob/pw into an empty store and
logging in with the same credentials. -/
theorem register_then_login_succeeds_witness :
    (∀ u ∈ (⟨[], [], [], []⟩ : DB).users, u.username ≠ "bob") ∧
    (index (index ⟨[], [], [], []⟩ ⟨none, none⟩ (.register "bob" "B" "B" "pw")).db
      ⟨none, none⟩ (.login "bob" "pw")).session = ⟨some 1, some "bob"⟩ :=
  ⟨fun u hu => absurd hu (List.not_mem_nil u),
   (register_then_login_succeeds ⟨[], [], [], []⟩ ⟨none, none⟩ ⟨none, none⟩
     "bob" "B" "B" "pw" (fun u hu => absurd hu (List.not_mem_nil u))).1⟩

/-- C4: the uploads route responds forbidden exactly when the lowercased
filename ends in .html, .htm or .js or its extension is outside the
allow-list; a name ending in .js or .html is forbidden for every
allow-list; when none of the conditions holds the file is served. -/
theorem uploads_forbidden_iff (allowed : List String) (filename : String) :
    (uploads allowed filename = .forbidden ↔
      (strEndsWith (strToLower filename) ".html" = true ∨
       strEndsWith (strToLower filename) ".htm" = true ∨
       strEndsWith (strToLower filename) ".js" = true ∨
       allowed.contains (uploadsExt (strToLower filename)) = false)) ∧
    (strEndsWith (strToLower filename) ".js" = true →
      uploads allowed filename = .forbidden) ∧
    (strEndsWith (strToLower filename) ".html" = true →
      uploads allowed filename = .forbidden) ∧
    ((strEndsWith (strToLower filename) ".html" = false ∧
      strEndsWith (strToLower filename) ".htm" = false ∧
      strEndsWith (strToLower filename) ".js" = false ∧
      allowed.contains (uploadsExt (strToLower filename)) = true) →
      uploads allowed filename = .sendFile filename) := by
  cases h1 : strEndsWith (strToLower filename) ".html" <;>
  cases h2 : strEndsWith (strToLower filename) ".htm" <;>
  cases h3 : strEndsWith (strToLower filename) ".js" <;>
  cases h4 : allowed.contains (uploadsExt (strToLower filename)) <;>
    simp at h4 <;> simp [uploads, h1, h2, h3, h4]

/-- Witness for C4: evil.js and evil.html are forbidden even when their
extensions are in the allow-list. -/
theorem uploads_forbidden_iff_witness :
    strEndsWith (strToLower "evil.js") ".js" = true ∧
    uploads ["js"] "evil.js" = .forbidden ∧
    strEndsWith (strToLower "evil.html") ".html" = true ∧
    uploads ["html"] "evil.html" = .forbidden :=
  ⟨by decide, (uploads_forbidden_iff ["js"] "evil.js").2.1 (by decide),
   by decide, (uploads_forbidden_iff ["html"] "evil.html").2.2.1 (by decide)⟩

/-- Shared core of C3 and C9: a validated stream submission attaching a
file with a non-empty name whose sanitized extension is outside the
allow-list flashes the file-type warning and redirects, leaving the
store untouched and writing no file. -/
theorem stream_post_reject
    (sanitize : String → String) (allowed : List String) (token : String) (now : Nat)
    (db : DB) (sess : Session) (uid : Nat) (hs : sess.user_id = some uid)
    (urlUsername content fname : String) (hne : fname ≠ "")
    (hext : allowed.contains (streamExt (sanitize fname)) = false) :
    ∃ u, stream sanitize allowed token now db sess .post urlUsername
        (some { content := content, image := some fname }) =
      { db := db, session := sess, flashes := [⟨"File type not allowed", "warning"⟩],
        response := .redirect (.stream u), filesWritten := [] } := by
  have hb : (fname != "") = true := by simpa [bne_iff_ne] using hne
  have hext2 : streamExt (sanitize fname) ∉ allowed := by simpa using hext
  refine ⟨if some urlUsername ≠ sess.username then sess.username.getD "" else urlUsername, ?_⟩
  by_cases hc : some urlUsername ≠ sess.username
  · simp [stream, login_required, hs, canonicalize, hc, hb, hext2]
  · simp [stream, login_required, hs, canonicalize, hc, hb, hext2]

/-- C3: a post submission to the stream handler attaching a file whose
sanitized extension is outside the allow-list flashes the warning
File type not allowed and redirects; afterwards no file has been written,
no Post row has been inserted, and the text content is discarded (the
store is exactly the one before the request). -/
theorem stream_rejects_disallowed_extension
    (sanitize : String → String) (allowed : List String) (token : String) (now : Nat)
    (db : DB) (sess : Session) (uid : Nat) (hs : sess.user_id = some uid)
    (urlUsername content fname : String) (hne : fname ≠ "")
    (hext : allowed.contains (streamExt (sanitize fname)) = false) :
    ∃ u, stream sanitize allowed token now db sess .post urlUsername
        (some { content := content, image := some fname }) =
      { db := db, session := sess, flashes := [⟨"File type not allowed", "warning"⟩],
        response := .redirect (.stream u), filesWritten := [] } :=
  stream_post_reject sanitize allowed token now db sess uid hs urlUsername content fname
    hne hext

/-- Witness for C3: a concrete submission of evil.exe against a png-only
allow-list. -/
theorem stream_rejects_disallowed_extension_witness :
    (⟨some 1, some "alice"⟩ : Session).user_id = some 1 ∧
    ("evil.exe" ≠ "") ∧
    (["png"].contains (streamExt ((fun s => s) "evil.exe")) = false) ∧
    ∃ u, stream (fun s => s) ["png"] "t" 7 ⟨[aliceRow], [], [], []⟩
        ⟨some 1, some "alice"⟩ .post "alice"
        (some { content := "hello", image := some "evil.exe" }) =
      { db := ⟨[aliceRow], [], [], []⟩, session := ⟨some 1, some "alice"⟩,
        flashes := [⟨"File type not allowed", "warning"⟩],
        response := .redirect (.stream u), filesWritten := [] } :=
  ⟨rfl, by decide, by decide,
   stream_rejects_disallowed_extension (fun s => s) ["png"] "t" 7
     ⟨[aliceRow], [], [], []⟩ ⟨some 1, some "alice"⟩ 1 rfl "alice" "hello" "evil.exe"
     (by decide) (by decide)⟩

/-- C9: a dotless filename yields the empty extracted extension on both
paths; when the empty string is outside the allow-list the uploads route
responds forbidden, and an inbound post attaching such a file (whose
sanitized name is likewise dotless, as with secure_filename, which never
introduces a dot) is rejected with the file-type warning, creating no
Post and writing no file. -/
theorem dotless_filename_rejected
    (allowed : List String) (fname : String)
    (hdot : fname.data.contains '.' = false)
    (hempty : allowed.contains "" = false)
    (sanitize : String → String)
    (hsan : (sanitize fname).data.contains '.' = false)
    (token : String) (now : Nat) (db : DB) (sess : Session) (uid : Nat)
    (hs : sess.user_id = some uid) (urlUsername content : String) (hne : fname ≠ "") :
    uploadsExt (strToLower fname) = "" ∧
    streamExt (sanitize fname) = "" ∧
    uploads allowed fname = .forbidden ∧
    ∃ u, stream sanitize allowed token now db sess .post urlUsername
        (some { content := content, image := some fname }) =
      { db := db, session := sess, flashes := [⟨"File type not allowed", "warning"⟩],
        response := .redirect (.stream u), filesWritten := [] } := by
  have hlow := strToLower_no_dot hdot
  have hlow2 : '.' ∉ (strToLower fname).data := by simpa using hlow
  have hsan2 : '.' ∉ (sanitize fname).data := by simpa using hsan
  have hempty2 : "" ∉ allowed := by simpa using hempty
  have hue : uploadsExt (strToLower fname) = "" := by simp [uploadsExt, hlow2]
  have hse : streamExt (sanitize fname) = "" := by simp [streamExt, hsan2]
  refine ⟨hue, hse, ?_, ?_⟩
  · cases h1 : (strEndsWith (strToLower fname) ".html" ||
        strEndsWith (strToLower fname) ".htm" || strEndsWith (strToLower fname) ".js")
    · simp only [uploads]
      rw [h1]
      simp [hue, hempty2]
    · simp only [uploads]
      rw [h1]
      simp
  · exact stream_post_reject sanitize allowed token now db sess uid hs urlUsername
      content fname hne (by rw [hse]; exact hempty)

/-- Witness for C9: the dotless name README against a png-only
allow-list. -/
theorem dotless_filename_rejected_witness :
    ("README".data.contains '.' = false) ∧
    (["png"].contains "" = false) ∧
    uploads ["png"] "README" = .forbidden :=
  ⟨by decide, by decide,
   (dotless_filename_rejected ["png"] "README" (by decide) (by decide) (fun s => s)
     (by decide) "t" 7 ⟨[aliceRow], [], [], []⟩ ⟨some 1, some "alice"⟩ 1 rfl
     "alice" "hello" (by decide)).2.2.1⟩

/-- C7: for the four session-gated handlers, when the URL username
differs from the session username, a GET request is answered by a
redirect to the same route under the session username, and a POST
request behaves exactly like the same request issued with the session
username in the URL: the handler proceeds as the session user with no
error surfaced. -/
theorem username_mismatch_canonicalized
    (sanitize : String → String) (allowed : List String) (token : String) (now : Nat)
    (db : DB) (sess : Session) (uid : Nat) (su urlU : String)
    (hsid : sess.user_id = some uid) (hsu : sess.username = some su) (hne : urlU ≠ su)
    (pid : Nat) (pf : Option PostForm) (cf ff : Option String) (prf : Option ProfileForm) :
    stream sanitize allowed token now db sess .get urlU pf =
      { db := db, session := sess, flashes := [],
        response := .redirect (.stream su), filesWritten := [] } ∧
    comments now db sess .get urlU pid cf =
      { db := db, session := sess, flashes := [],
        response := .redirect (.comments su pid), filesWritten := [] } ∧
    friends db sess .get urlU ff =
      { db := db, session := sess, flashes := [],
        response := .redirect (.friends su), filesWritten := [] } ∧
    profile db sess .get urlU prf =
      { db := db, session := sess, flashes := [],
        response := .redirect (.profile su), filesWritten := [] } ∧
    stream sanitize allowed token now db sess .post urlU pf =
      stream sanitize allowed token now db sess .post su pf ∧
    comments now db sess .post urlU pid cf = comments now db sess .post su pid cf ∧
    friends db sess .post urlU ff = friends db sess .post su ff ∧
    profile db sess .post urlU prf = profile db sess .post su prf := by
  have hc1 : canonicalize urlU sess.username .get = .redirectTo su := by
    simp [canonicalize, hsu, hne]
  have hc2 : canonicalize urlU sess.username .post = .proceed su := by
    simp [canonicalize, hsu, hne]
  have hc3 : canonicalize su sess.username .post = .proceed su := by
    simp [canonicalize, hsu]
  refine ⟨?_, ?_, ?_, ?_, ?_, ?_, ?_, ?_⟩ <;>
    simp [stream, comments, friends, profile, login_required, hsid, hc1, hc2, hc3]

/-- Witness for C7: a GET on the stream of bob while logged in as alice
redirects to the stream of alice. -/
theorem username_mismatch_canonicalized_witness :
    (⟨some 1, some "alice"⟩ : Session).user_id = some 1 ∧
    (⟨some 1, some "alice"⟩ : Session).username = some "alice" ∧
    ("bob" ≠ "alice") ∧
    stream (fun s => s) [] "t" 0 ⟨[aliceRow], [], [], []⟩ ⟨some 1, some "alice"⟩
        .get "bob" none =
      { db := ⟨[aliceRow], [], [], []⟩, session := ⟨some 1, some "alice"⟩, flashes := [],
        response := .redirect (.stream "alice"), filesWritten := [] } :=
  ⟨rfl, rfl, by decide,
   (username_mismatch_canonicalized (fun s => s) [] "t" 0 ⟨[aliceRow], [], [], []⟩
     ⟨some 1, some "alice"⟩ 1 "alice" "bob" rfl rfl (by decide) 0 none none none none).1⟩

/-- The post lookup of the comments page misses when no post carries the
requested id. -/
theorem postJoin_find_none (posts : List Post) (users : List User) (pid : Nat)
    (h : ∀ p ∈ posts, p.id ≠ pid) :
    (posts.flatMap (fun p => (users.filter (fun u => u.id == p.u_id)).map
      (fun u => ({ post := p, author := u } : PostUserRow)))).find?
      (fun r => r.post.id == pid) = none := by
  rw [List.find?_eq_none]
  intro r hr
  rw [List.mem_flatMap] at hr
  obtain ⟨p, hp, hr2⟩ := hr
  rw [List.mem_map] at hr2
  obtain ⟨u, hu2, rfl⟩ := hr2
  simpa using h p hp

/-- C8: a validated comment submission inserts a Comment row referencing
the URL post id without checking that such a post exists; the posts
table is untouched, and when no post carries that id the insert still
happens and the page renders with an absent (none) post value. -/
theorem comment_inserted_without_post_check
    (now : Nat) (db : DB) (sess : Session) (uid : Nat) (user : User)
    (hs : sess.user_id = some uid) (hu : selectUserById db uid = some user)
    (urlU : String) (pid : Nat) (text : String) :
    (comments now db sess .post urlU pid (some text)).db.comments =
      db.comments ++ [{ p_id := pid, u_id := user.id, comment := text, creation_time := now }] ∧
    (comments now db sess .post urlU pid (some text)).db.posts = db.posts ∧
    ((∀ p ∈ db.posts, p.id ≠ pid) → ∃ un cs,
      (comments now db sess .post urlU pid (some text)).response =
        .renderComments un none cs) := by
  refine ⟨?_, ?_, ?_⟩
  · by_cases hc : some urlU ≠ sess.username <;>
      simp [comments, login_required, hs, canonicalize, hc, hu, commentsRead]
  · by_cases hc : some urlU ≠ sess.username <;>
      simp [comments, login_required, hs, canonicalize, hc, hu, commentsRead]
  · intro hno
    by_cases hc : some urlU ≠ sess.username <;>
      simp [comments, login_required, hs, canonicalize, hc, hu, commentsRead] <;>
      exact fun p hp u hu2 hid => hno p hp

/-- Witness for C8: commenting on the nonexistent post 42. -/
theorem comment_inserted_without_post_check_witness :
    selectUserById ⟨[aliceRow], [], [], []⟩ 1 = some aliceRow ∧
    (comments 7 ⟨[aliceRow], [], [], []⟩ ⟨some 1, some "alice"⟩ .post "alice" 42
        (some "hi")).db.comments =
      [] ++ [{ p_id := 42, u_id := aliceRow.id, comment := "hi", creation_time := 7 }] :=
  ⟨rfl, (comment_inserted_without_post_check 7 ⟨[aliceRow], [], [], []⟩
    ⟨some 1, some "alice"⟩ 1 aliceRow rfl rfl "alice" 42 "hi").1⟩

/-- Membership in the f_id projection of the edges leaving `a` is exactly
membership of the edge itself. -/
theorem fids_mem_iff (l : List Friend) (a b : Nat) :
    (b ∈ (l.filter (fun e => e.u_id == a)).map (fun e => e.f_id)) ↔
      (⟨a, b⟩ : Friend) ∈ l := by
  constructor
  · intro hb
    rw [List.mem_map] at hb
    obtain ⟨e, he, heb⟩ := hb
    rw [List.mem_filter] at he
    obtain ⟨hel, hea⟩ := he
    obtain ⟨eu, ef⟩ := e
    have hea2 : eu = a := by simpa using hea
    have heb2 : ef = b := by simpa using heb
    subst hea2
    subst heb2
    exact hel
  · intro h
    rw [List.mem_map]
    exact ⟨⟨a, b⟩, List.mem_filter.2 ⟨h, by simp⟩, rfl⟩

/-- Intended invariant of the Friends relation: no self-edge and no
duplicate (u_id, f_id) pair. -/
def FriendsOk (l : List Friend) : Prop :=
  (∀ e ∈ l, e.u_id ≠ e.f_id) ∧ l.Nodup

/-- Stores reachable from a store whose Friends relation is empty using
the friends handler alone, under arbitrary sessions, methods, URL
usernames and submissions. -/
inductive FriendsReachable : DB → Prop where
  | init (db : DB) : db.friends = [] → FriendsReachable db
  | step (db : DB) (sess : Session) (m : Method) (urlU : String) (form : Option String) :
      FriendsReachable db → FriendsReachable (friends db sess m urlU form).db

/-- One friends-handler request either leaves the store untouched or
appends a single non-self edge that was not present before. -/
theorem friends_db_cases (db : DB) (sess : Session) (m : Method) (urlU : String)
    (form : Option String) :
    (friends db sess m urlU form).db = db ∨
    ∃ a b : Nat, a ≠ b ∧ (⟨a, b⟩ : Friend) ∉ db.friends ∧
      (friends db sess m urlU form).db = { db with friends := db.friends ++ [⟨a, b⟩] } := by
  rcases hsid : sess.user_id with _ | uid
  · exact Or.inl (by simp [friends, login_required, guardResult, hsid])
  rcases hcan : canonicalize urlU sess.username m with su | su
  · exact Or.inl (by simp [friends, login_required, hsid, hcan])
  rcases huser : selectUserById db uid with _ | user
  · exact Or.inl (by simp [friends, login_required, hsid, hcan, huser])
  cases m with
  | get => exact Or.inl (by simp [friends, login_required, hsid, hcan, huser])
  | post =>
    cases form with
    | none => exact Or.inl (by simp [friends, login_required, hsid, hcan, huser])
    | some target =>
      rcases hfr : selectUserByUsername db target with _ | fr
      · exact Or.inl (by simp [friends, login_required, hsid, hcan, huser, hfr])
      cases h1 : fr.id == user.id with
      | true =>
        exact Or.inl (by simp [friends, login_required, hsid, hcan, huser, hfr, h1])
      | false =>
        cases h2 : ((db.friends.filter (fun e => e.u_id == user.id)).map
            (fun e => e.f_id)).contains fr.id with
        | true =>
          refine Or.inl ?_
          simp only [friends, login_required, hsid, hcan, huser, hfr]
          simp [h1]
          rw [h2]
          simp
        | false =>
          refine Or.inr ⟨user.id, fr.id, ?_, ?_, ?_⟩
          · intro hab
            rw [beq_eq_false_iff_ne] at h1
            exact h1 hab.symm
          · intro hmem
            have hx : ((db.friends.filter (fun e => e.u_id == user.id)).map
                (fun e => e.f_id)).contains fr.id = true := by
              rw [List.contains_eq_any_beq, List.any_eq_true]
              exact ⟨fr.id, (fids_mem_iff db.friends user.id fr.id).2 hmem, by simp⟩
            rw [h2] at hx
            cases hx
          · simp only [friends, login_required, hsid, hcan, huser, hfr]
            simp [h1]
            rw [h2]
            simp

/-- Every store reachable through the friends handler alone from an empty
Friends relation satisfies the invariant. -/
theorem friends_reachable_ok (db : DB) (h : FriendsReachable db) : FriendsOk db.friends := by
  induction h with
  | init db h0 =>
    rw [h0]
    exact ⟨fun e he => absurd he (List.not_mem_nil e), List.nodup_nil⟩
  | step db sess m urlU form h ih =>
    rcases friends_db_cases db sess m urlU form with hcase | ⟨a, b, hab, hnm, hcase⟩
    · rw [hcase]
      exact ih
    · rw [hcase]
      constructor
      · intro e he
        rw [List.mem_append, List.mem_singleton] at he
        rcases he with he | rfl
        · exact ih.1 e he
        · exact hab
      · rw [List.nodup_append]
        refine ⟨ih.2, List.nodup_singleton _, fun x hx hx2 => ?_⟩
        rw [List.mem_singleton] at hx2
        subst hx2
        exact hnm hx

/-- On a POST the canonicalization block never redirects: it proceeds,
as the session user when the URL username mismatches. -/
theorem canonicalize_post (urlU : String) (s : Option String) :
    canonicalize urlU s .post = .proceed (if some urlU ≠ s then s.getD "" else urlU) := by
  unfold canonicalize
  by_cases h : some urlU ≠ s
  · rw [if_pos h, if_pos h]
  · rw [if_neg h, if_neg h]

/-- C5: a friend-add submission warns and inserts nothing when the
target username is missing, names the current user, or is already
friended by the current user; otherwise it appends exactly the one
directed edge from the current user to the target; consequently every
store reachable through the friends handler alone from an empty Friends
relation has no self-edge and no duplicate (u_id, f_id) pair. -/
theorem friends_handler_cases_and_invariant
    (db : DB) (sess : Session) (uid : Nat) (user : User) (urlU target : String)
    (hs : sess.user_id = some uid) (hu : selectUserById db uid = some user) :
    (selectUserByUsername db target = none →
      (friends db sess .post urlU (some target)).db = db ∧
      (friends db sess .post urlU (some target)).flashes =
        [⟨"User does not exist!", "warning"⟩]) ∧
    (∀ fr, selectUserByUsername db target = some fr → fr.id = user.id →
      (friends db sess .post urlU (some target)).db = db ∧
      (friends db sess .post urlU (some target)).flashes =
        [⟨"You cannot be friends with yourself!", "warning"⟩]) ∧
    (∀ fr, selectUserByUsername db target = some fr → fr.id ≠ user.id →
      (⟨user.id, fr.id⟩ : Friend) ∈ db.friends →
      (friends db sess .post urlU (some target)).db = db ∧
      (friends db sess .post urlU (some target)).flashes =
        [⟨"You are already friends with this user!", "warning"⟩]) ∧
    (∀ fr, selectUserByUsername db target = some fr → fr.id ≠ user.id →
      (⟨user.id, fr.id⟩ : Friend) ∉ db.friends →
      (friends db sess .post urlU (some target)).db.friends =
        db.friends ++ [⟨user.id, fr.id⟩] ∧
      (friends db sess .post urlU (some target)).flashes =
        [⟨"Friend successfully added!", "success"⟩]) ∧
    (∀ db2, FriendsReachable db2 → FriendsOk db2.friends) := by
  refine ⟨?_, ?_, ?_, ?_, fun db2 h2 => friends_reachable_ok db2 h2⟩
  · intro h
    constructor <;> simp [friends, login_required, hs, canonicalize_post, hu, h]
  · intro fr hfr heq
    have h1 : (fr.id == user.id) = true := beq_iff_eq.2 heq
    constructor <;> simp [friends, login_required, hs, canonicalize_post, hu, hfr, h1]
  · intro fr hfr hne hmem
    have h1 : (fr.id == user.id) = false := beq_eq_false_iff_ne.2 hne
    have h2 : ((db.friends.filter (fun e => e.u_id == user.id)).map
        (fun e => e.f_id)).contains fr.id = true := by
      rw [List.contains_eq_any_beq, List.any_eq_true]
      exact ⟨fr.id, (fids_mem_iff db.friends user.id fr.id).2 hmem, by simp⟩
    constructor <;> (
      simp only [friends, login_required, hs, canonicalize_post, hu, hfr]
      simp [h1]
      rw [h2]
      simp)
  · intro fr hfr hne hnm
    have h1 : (fr.id == user.id) = false := beq_eq_false_iff_ne.2 hne
    have h2 : ((db.friends.filter (fun e => e.u_id == user.id)).map
        (fun e => e.f_id)).contains fr.id = false := by
      rw [Bool.eq_false_iff]
      intro hx
      rw [List.contains_eq_any_beq, List.any_eq_true] at hx
      obtain ⟨x, hxm, hxe⟩ := hx
      have hxx : fr.id = x := by simpa using hxe
      subst hxx
      exact hnm ((fids_mem_iff db.friends user.id fr.id).1 hxm)
    constructor <;> (
      simp only [friends, login_required, hs, canonicalize_post, hu, hfr]
      simp [h1]
      rw [h2]
      simp)

/-- Second user row, target of the concrete friend-add. -/
def bobRow : User :=
  { id := 2, username := "bob", first_name := "B", last_name := "B", password := "pw2" }

/-- Witness for C5: alice successfully friends bob; exactly the edge
1 -> 2 is appended. -/
theorem friends_handler_cases_and_invariant_witness :
    selectUserById ⟨[aliceRow, bobRow], [], [], []⟩ 1 = some aliceRow ∧
    selectUserByUsername ⟨[aliceRow, bobRow], [], [], []⟩ "bob" = some bobRow ∧
    (friends ⟨[aliceRow, bobRow], [], [], []⟩ ⟨some 1, some "alice"⟩ .post "alice"
        (some "bob")).db.friends = [] ++ [⟨aliceRow.id, bobRow.id⟩] :=
  ⟨rfl, rfl,
   ((friends_handler_cases_and_invariant ⟨[aliceRow, bobRow], [], [], []⟩
      ⟨some 1, some "alice"⟩ 1 aliceRow "alice" "bob" rfl rfl).2.2.2.1 bobRow rfl
      (by decide) (by decide)).1⟩

/-- Reduction of the successful friend-add: the handler appends exactly
the directed edge (current user, target) to the Friends relation. -/
theorem friends_insert_db (db : DB) (sess : Session) (uid : Nat) (user : User)
    (urlU target : String) (fr : User)
    (hs : sess.user_id = some uid) (hu : selectUserById db uid = some user)
    (hfr : selectUserByUsername db target = some fr)
    (hne : fr.id ≠ user.id) (hnm : (⟨user.id, fr.id⟩ : Friend) ∉ db.friends) :
    (friends db sess .post urlU (some target)).db =
      { db with friends := db.friends ++ [⟨user.id, fr.id⟩] } := by
  have h1 : (fr.id == user.id) = false := beq_eq_false_iff_ne.2 hne
  have h2 : ((db.friends.filter (fun e => e.u_id == user.id)).map
      (fun e => e.f_id)).contains fr.id = false := by
    rw [Bool.eq_false_iff]
    intro hx
    rw [List.contains_eq_any_beq, List.any_eq_true] at hx
    obtain ⟨x, hxm, hxe⟩ := hx
    have hxx : fr.id = x := by simpa using hxe
    subst hxx
    exact hnm ((fids_mem_iff db.friends user.id fr.id).1 hxm)
  simp only [friends, login_required, hs, canonicalize_post, hu, hfr]
  simp [h1]
  rw [h2]
  simp

/-- C6: after A friends B, the friends-list read for A lists B, the
friends-list read for B does not list A unless the reverse edge exists
independently, and yet the stream query for B includes every post
authored by A: stream visibility follows Friend edges in both directions
while the friends-list read follows only edges leaving the current
user. -/
theorem friend_asymmetry_stream_vs_list
    (db : DB) (sess : Session) (uid : Nat) (uA uB : User) (urlU : String)
    (hs : sess.user_id = some uid) (huA : selectUserById db uid = some uA)
    (hfB : selectUserByUsername db uB.username = some uB)
    (hne : uB.id ≠ uA.id)
    (hnm : (⟨uA.id, uB.id⟩ : Friend) ∉ db.friends) :
    (∃ r ∈ friendsQuery (friends db sess .post urlU (some uB.username)).db uA.id,
      r.friendUser = uB) ∧
    ((⟨uB.id, uA.id⟩ : Friend) ∉ db.friends →
      ∀ r ∈ friendsQuery (friends db sess .post urlU (some uB.username)).db uB.id,
        r.friendUser.id ≠ uA.id) ∧
    (∀ p ∈ db.posts, p.u_id = uA.id →
      ∃ r ∈ streamQuery (friends db sess .post urlU (some uB.username)).db uB.id,
        r.post = p) := by
  have hBmem : uB ∈ db.users := by
    unfold selectUserByUsername at hfB
    exact List.mem_of_find?_eq_some hfB
  have hAmem : uA ∈ db.users := by
    unfold selectUserById at huA
    exact List.mem_of_find?_eq_some huA
  rw [friends_insert_db db sess uid uA urlU uB.username uB hs huA hfB hne hnm]
  refine ⟨?_, ?_, ?_⟩
  · refine ⟨⟨⟨uA.id, uB.id⟩, uB⟩, ?_, rfl⟩
    unfold friendsQuery
    rw [List.mem_filter]
    constructor
    · rw [List.mem_flatMap]
      refine ⟨⟨uA.id, uB.id⟩, by simp, ?_⟩
      rw [List.mem_map]
      refine ⟨uB, ?_, rfl⟩
      rw [List.mem_filter]
      exact ⟨hBmem, by simp⟩
    · simp [hne]
  · intro hno r hr
    unfold friendsQuery at hr
    rw [List.mem_filter] at hr
    obtain ⟨hr1, hr2⟩ := hr
    rw [Bool.and_eq_true] at hr2
    obtain ⟨h21, h22⟩ := hr2
    rw [List.mem_flatMap] at hr1
    obtain ⟨e, he, hr3⟩ := hr1
    rw [List.mem_map] at hr3
    obtain ⟨u, hu2, rfl⟩ := hr3
    rw [List.mem_filter] at hu2
    intro hua
    have hfid : u.id = e.f_id := by simpa using hu2.2
    have heu : e.u_id = uB.id := by simpa using h21
    rw [List.mem_append, List.mem_singleton] at he
    rcases he with he | rfl
    · obtain ⟨eu, ef⟩ := e
      simp only at hfid heu
      rw [heu] at he
      rw [← hfid, hua] at he
      exact hno he
    · simp only at heu
      exact hne heu.symm
  · intro p hp hpu
    refine ⟨⟨p, uA, commentCount { db with friends := db.friends ++ [⟨uA.id, uB.id⟩] } p.id⟩,
      ?_, rfl⟩
    unfold streamQuery
    rw [List.mem_mergeSort, List.mem_filter]
    constructor
    · rw [List.mem_flatMap]
      refine ⟨p, hp, ?_⟩
      rw [List.mem_map]
      refine ⟨uA, ?_, rfl⟩
      rw [List.mem_filter]
      exact ⟨hAmem, by simp [hpu]⟩
    · unfold streamVisible
      have hcont : ((({ db with friends := db.friends ++ [⟨uA.id, uB.id⟩] } : DB).friends.filter
          (fun e => e.f_id == uB.id)).map (fun e => e.u_id)).contains p.u_id = true := by
        rw [List.contains_eq_any_beq, List.any_eq_true]
        refine ⟨uA.id, ?_, by simp [hpu]⟩
        rw [List.mem_map]
        refine ⟨⟨uA.id, uB.id⟩, ?_, rfl⟩
        rw [List.mem_filter]
        exact ⟨by simp, by simp⟩
      rw [hcont]
      simp

/-- A post authored by alice, used by the concrete asymmetry witness. -/
def alicePost : Post := { id := 1, u_id := 1, content := "hi", image := none, creation_time := 5 }

/-- Witness for C6: after alice friends bob, the stream query for bob
includes the post authored by alice. -/
theorem friend_asymmetry_stream_vs_list_witness :
    (bobRow.id ≠ aliceRow.id) ∧
    ((⟨aliceRow.id, bobRow.id⟩ : Friend) ∉ ([] : List Friend)) ∧
    ∃ r ∈ streamQuery (friends ⟨[aliceRow, bobRow], [alicePost], [], []⟩
        ⟨some 1, some "alice"⟩ .post "alice" (some "bob")).db bobRow.id,
      r.post = alicePost :=
  ⟨by decide, by decide,
   (friend_asymmetry_stream_vs_list ⟨[aliceRow, bobRow], [alicePost], [], []⟩
     ⟨some 1, some "alice"⟩ 1 aliceRow bobRow "alice" rfl rfl rfl (by decide)
     (by decide)).2.2 alicePost (by simp) rfl⟩
